import Mathlib

/-!
Verification of the cornerstone3D repository slice: CINE clip playback
(`playClip`, `playClipAction`, `_getPlayClipTimeouts`), the rectangle-scissors
erase strategy (`eraseRectangle`), the `ZoomTool` parallel-projection drag,
`RectangleScissorsTool.preMouseDownCallback`, `convertMultiframeImageIds` and
`fillOutsideSphere`.  JavaScript numbers are embedded as exact rationals `ℚ`
(with the `| 0` truncation-to-Int32 modelled explicitly), JS strings as
`List Char`, mutable scalar arrays as functions `ℤ → ℤ` updated pointwise,
and thrown exceptions as `Option String` / `Except String` results.
-/

/-- The list of integers `lo, lo+1, ..., hi` (empty when `hi < lo`). -/
def intRange (lo hi : ℤ) : List ℤ :=
  (List.range (hi + 1 - lo).toNat).map (fun k => lo + Int.ofNat k)

/-- Truncation of a rational toward zero, the integral part JavaScript's
`Math.trunc` (and `| 0`, before the Int32 wrap) produces. -/
def ratTrunc (q : ℚ) : ℤ :=
  q.num.tdiv (q.den : ℤ)

/-- JavaScript's `x | 0`: ToInt32, i.e. truncation toward zero followed by
wrapping into `[-2^31, 2^31)` (the numerals are `2^32` and `2^31`). -/
def toInt32 (q : ℚ) : ℤ :=
  (ratTrunc q).bmod 4294967296

namespace Cine

/-- The slice of the CINE tool state (`playClipData`) read and written by the
scheduling logic of `playClip` in src/unnamed/part_000. -/
structure PlayClipData where
  framesPerSecond : ℚ
  ignoreFrameTimeVector : Bool
  usingFrameTimeVector : Bool
  frameTimeVector : Option (List ℚ)
  speed : ℚ
  reverse : Bool
  loop : Bool
  bounce : Bool
deriving Repr, DecidableEq

/-- The options record accepted by `playClip` (fields relevant to scheduling). -/
structure PlayClipOptions where
  framesPerSecond : Option ℚ := none
  frameTimeVector : Option (List ℚ) := none
  frameTimeVectorSpeedMultiplier : Option ℚ := none
  reverse : Option Bool := none
  loop : Option Bool := none
  bounce : Option Bool := none
deriving Repr, DecidableEq

/-- The play context produced by `_createCinePlayContext`: whether the context
has a `play` method (video viewports), the number of scroll steps, and whether
the frame time vector is enabled for the current orientation. -/
structure CinePlayContext where
  hasPlay : Bool
  numScrollSteps : ℤ
  currentStepIndex : ℤ
  frameTimeVectorEnabled : Bool
deriving Repr, DecidableEq

/-- Fresh `playClipData` created by `playClip` (src/unnamed/part_000 lines
76-89) when no tool state exists for the element yet. -/
def freshPlayClipData (opts : PlayClipOptions) : PlayClipData :=
  { framesPerSecond := 30
    ignoreFrameTimeVector := false
    usingFrameTimeVector := false
    frameTimeVector := opts.frameTimeVector
    speed := opts.frameTimeVectorSpeedMultiplier.getD 1
    reverse := opts.reverse.getD false
    loop := opts.loop.getD true
    bounce := opts.bounce.getD false }

/-- The `framesPerSecond` / `bounce` option handling of `playClip`
(src/unnamed/part_000 lines 102-111 and 129-131): a non-zero `framesPerSecond`
option overrides the stored rate, sets `reverse` from its sign and makes the
clip ignore the frame time vector; a `bounce` option overrides `bounce`. -/
def applyOptions (d : PlayClipData) (opts : PlayClipOptions) : PlayClipData :=
  let d1 :=
    match opts.framesPerSecond with
    | some fps =>
        if fps < 0 ∨ 0 < fps then
          { d with framesPerSecond := fps
                   reverse := decide (fps < 0)
                   ignoreFrameTimeVector := true }
        else d
    | none => d
  match opts.bounce with
  | some b => { d1 with bounce := b }
  | none => d1

/-- The effective speed used by `_getPlayClipTimeouts`: 1 whenever the given
speed is not a number (`none`) or is `<= 0` (src/unnamed/part_000 lines
309-311). -/
def effectiveSpeed (speed : Option ℚ) : ℚ :=
  match speed with
  | none => 1
  | some s => if s ≤ 0 then 1 else s

/-- `_getPlayClipTimeouts` (src/unnamed/part_000 lines 298-341): discards the
first element of the frame time vector, divides each remaining element by the
speed keeping the integral part only (JS `| 0`), detects whether the delays
vary, and appends a final delay (the truncated average when time varying,
otherwise a copy of the first delay).  Returns the timeouts and the
`isTimeVarying` flag. -/
def getPlayClipTimeouts (vector : List ℚ) (speed : Option ℚ) :
    List ℤ × Bool :=
  let s := effectiveSpeed speed
  match vector with
  | [] => ([], false)
  | _ :: [] => ([], false)
  | _ :: q1 :: qs =>
      let sample := toInt32 (q1 / s)
      let timeouts := (q1 :: qs).map (fun q => toInt32 (q / s))
      let isTimeVarying := (qs.map (fun q => toInt32 (q / s))).any
        (fun d => decide (d ≠ sample))
      let sum : ℤ := timeouts.sum
      let lastDelay :=
        if isTimeVarying then toInt32 ((sum : ℚ) / (timeouts.length : ℚ))
        else sample
      (timeouts ++ [lastDelay], isTimeVarying)

/-- The delays claim C2 says `_getPlayClipTimeouts` produces: for each element
of the frame time vector except the first, the integral part of the element
divided by the effective speed. -/
def producedDelays (vector : List ℚ) (speed : Option ℚ) : List ℤ :=
  vector.tail.map (fun q => ratTrunc (q / effectiveSpeed speed))

/-- The observable effect of one `playClipAction` tick: whether the clip was
stopped (with a `CLIP_STOPPED` event fired), the direction and step index after
the tick, and whether a scroll was issued. -/
structure StepEffect where
  clipStopped : Bool
  stopEventFired : Bool
  reverseAfter : Bool
  indexAfter : ℤ
  scrollIssued : Bool
deriving Repr, DecidableEq

/-- The per-tick step logic of `playClipAction` (src/unnamed/part_000 lines
134-171): advance the step index by +1 (or -1 in reverse); when out of range,
bounce flips the direction, recomputes and clamps (`Math.max(0,
Math.min(numScrollSteps - 1, ...))`), otherwise loop wraps, otherwise the clip
is stopped and `CLIP_STOPPED` is fired; `scroll(delta)` is called only when the
delta is non-zero. -/
def playClipAction (numScrollSteps currentStepIndex : ℤ)
    (reverse bounce loop : Bool) : StepEffect :=
  let newStepIndex := currentStepIndex + (if reverse then -1 else 1)
  if newStepIndex < 0 ∨ numScrollSteps ≤ newStepIndex then
    if bounce then
      let r := !reverse
      let n1 := currentStepIndex + (if r then -1 else 1)
      let n2 := max 0 (min (numScrollSteps - 1) n1)
      { clipStopped := false, stopEventFired := false, reverseAfter := r
        indexAfter := n2, scrollIssued := decide (n2 - currentStepIndex ≠ 0) }
    else if !loop then
      { clipStopped := true, stopEventFired := true, reverseAfter := reverse
        indexAfter := currentStepIndex, scrollIssued := false }
    else
      let n := if reverse then numScrollSteps - 1 else 0
      { clipStopped := false, stopEventFired := false, reverseAfter := reverse
        indexAfter := n, scrollIssued := decide (n - currentStepIndex ≠ 0) }
  else
    { clipStopped := false, stopEventFired := false, reverseAfter := reverse
      indexAfter := newStepIndex
      scrollIssued := decide (newStepIndex - currentStepIndex ≠ 0) }

/-- The step behaviour exactly as claim C1 words it: advance by +1 or -1; if the
new index falls outside `[0, numScrollSteps)` then with bounce the direction is
flipped and the index recomputed and clamped into `[0, numScrollSteps - 1]`,
otherwise with loop the index wraps to 0 (or `numScrollSteps - 1` in reverse),
otherwise the clip is stopped and `CLIP_STOPPED` fired without a scroll; a
scroll is issued only when the resulting index differs from the current one. -/
def claimStep (numScrollSteps currentStepIndex : ℤ)
    (reverse bounce loop : Bool) : StepEffect :=
  let nxt := currentStepIndex + (if reverse then -1 else 1)
  if 0 ≤ nxt ∧ nxt < numScrollSteps then
    { clipStopped := false, stopEventFired := false, reverseAfter := reverse
      indexAfter := nxt, scrollIssued := decide (nxt ≠ currentStepIndex) }
  else if bounce then
    let r := !reverse
    let recomputed := currentStepIndex + (if r then -1 else 1)
    let clamped :=
      if recomputed < 0 then 0
      else if numScrollSteps - 1 < recomputed then numScrollSteps - 1
      else recomputed
    { clipStopped := false, stopEventFired := false, reverseAfter := r
      indexAfter := clamped, scrollIssued := decide (clamped ≠ currentStepIndex) }
  else if loop then
    let wrapped := if reverse then numScrollSteps - 1 else 0
    { clipStopped := false, stopEventFired := false, reverseAfter := reverse
      indexAfter := wrapped
      scrollIssued := decide (wrapped ≠ currentStepIndex) }
  else
    { clipStopped := true, stopEventFired := true, reverseAfter := reverse
      indexAfter := currentStepIndex, scrollIssued := false }

/-- The scheduling decision taken at the end of `playClip`. -/
inductive ScheduleMode where
  | contextPlay
  | chainedTimeout (timeouts : List ℤ)
  | fixedInterval (period : ℚ)
deriving Repr, DecidableEq

/-- Lines 113-127 of src/unnamed/part_000: the frame time vector timeouts are
computed only when the vector is stored, `ignoreFrameTimeVector` is not set,
the vector length equals `numScrollSteps` and the context reports
`frameTimeVectorEnabled`. -/
def computeTimeouts (d : PlayClipData) (ctx : CinePlayContext) :
    Option (List ℤ × Bool) :=
  match d.frameTimeVector with
  | some v =>
      if d.ignoreFrameTimeVector = false ∧ (v.length : ℤ) = ctx.numScrollSteps ∧
          ctx.frameTimeVectorEnabled = true then
        some (getPlayClipTimeouts v (some d.speed))
      else none
  | none => none

/-- Lines 183-213 of src/unnamed/part_000: with a `play` method the context
plays directly; otherwise when timeouts were computed, are non-empty and are
time varying, chained `setTimeout` scheduling is used and
`usingFrameTimeVector` is set; otherwise `setInterval` at a fixed period of
`1000 / |framesPerSecond|` is used and `usingFrameTimeVector` is cleared. -/
def schedule (ctx : CinePlayContext) (d : PlayClipData) :
    ScheduleMode × PlayClipData :=
  if ctx.hasPlay then (.contextPlay, d)
  else
    match computeTimeouts d ctx with
    | some (ts, tv) =>
        if 0 < ts.length ∧ tv = true then
          (.chainedTimeout ts, { d with usingFrameTimeVector := true })
        else
          (.fixedInterval (1000 / |d.framesPerSecond|),
            { d with usingFrameTimeVector := false })
    | none =>
        (.fixedInterval (1000 / |d.framesPerSecond|),
          { d with usingFrameTimeVector := false })

/-- The `playClip` pipeline for the state and scheduling decision: take the
stored tool state (or create a fresh one from the options), apply the option
overrides, then schedule.  Error guards are modelled by `playClipGuarded`. -/
def playClipSchedule (prior : Option PlayClipData) (opts : PlayClipOptions)
    (ctx : CinePlayContext) : ScheduleMode × PlayClipData :=
  schedule ctx (applyOptions (prior.getD (freshPlayClipData opts)) opts)

/-- The entry of `playClip` (src/unnamed/part_000 lines 36-220) including its
two guards (lines 43-53).  `element` is `none` when the JS argument is
`undefined`; `getEnabled` models `getEnabledElement`.  The tool state update
and the started timer exist only in the `Except.ok` result, so an error is
thrown before any tool state is added and before any timer is started. -/
def playClipGuarded {α β : Type} (element : Option α)
    (getEnabled : α → Option β) (ctxOf : β → CinePlayContext)
    (prior : Option PlayClipData) (opts : PlayClipOptions) :
    Except String (ScheduleMode × PlayClipData) :=
  match element with
  | none => .error "playClip: element must not be undefined"
  | some e =>
      match getEnabled e with
      | none => .error "playClip: element must be a valid Cornerstone enabled element"
      | some ee => .ok (playClipSchedule prior opts (ctxOf ee))

end Cine

namespace SphereStrategy

/-- `fillOutsideSphere` (src/packages/tools/src/tools (sphere strategy file)
lines 467-469): unconditionally throws. -/
def fillOutsideSphere (_ : Unit) : Except String Unit :=
  .error "fill outside sphere not implemented"

end SphereStrategy

namespace EraseRect

/-- The axis-aligned IJK bounding box computed by `getBoundingBoxAroundShape`
from the rectangle corners, as consumed by `eraseRectangle`
(src/unnamed/part_001 line 34): per-axis `(min, max)` pairs. -/
structure BoundsIJK where
  iMin : ℤ
  iMax : ℤ
  jMin : ℤ
  jMax : ℤ
  kMin : ℤ
  kMax : ℤ
deriving Repr, DecidableEq

/-- The erase operation data consumed by `eraseRectangle`
(src/unnamed/part_001): labelmap scalar data (value per linear voxel index),
volume dimensions, locked segment values, and the rectangle's IJK bounding box
(the result of `imageData.worldToIndex` on the four corners followed by
`getBoundingBoxAroundShape`, both living outside this source slice, so the box
is the input). -/
structure EraseOperationData where
  scalarData : ℤ → ℤ
  dimensions : ℤ × ℤ × ℤ
  segmentsLocked : List ℤ
  boundsIJK : BoundsIJK

/-- Row-major linear index of the voxel `(i, j, k)` in a volume of the given
dimensions. -/
def linearIndex (dims : ℤ × ℤ × ℤ) (p : ℤ × ℤ × ℤ) : ℤ :=
  p.1 + p.2.1 * dims.1 + p.2.2 * dims.1 * dims.2.1

/-- All voxel coordinates inside the bounding box, bounds inclusive. -/
def voxelsInBounds (b : BoundsIJK) : List (ℤ × ℤ × ℤ) :=
  (intRange b.kMin b.kMax).flatMap (fun k =>
    (intRange b.jMin b.jMax).flatMap (fun j =>
      (intRange b.iMin b.iMax).map (fun i => (i, j, k))))

/-- Modelled from the spec: `pointInShapeCallback`
(`util/planar/pointInShapeCallback`, imported by src/unnamed/part_001 but not
part of this source slice) is one of the "voxel-iteration callbacks" the
segmentation strategies are layered on — it visits every voxel of `boundsIJK`
and, for each one whose position satisfies `pointInShape`, invokes `callback`
with the voxel's current value and linear index; the callback may write the
scalar data. -/
def pointInShapeCallback (b : BoundsIJK) (dims : ℤ × ℤ × ℤ)
    (pointInShape : ℤ × ℤ × ℤ → Bool)
    (callback : (ℤ → ℤ) → ℤ → ℤ → (ℤ → ℤ)) (data : ℤ → ℤ) : ℤ → ℤ :=
  (voxelsInBounds b).foldl
    (fun d p =>
      if pointInShape p then
        callback d (d (linearIndex dims p)) (linearIndex dims p)
      else d) data

/-- The callback of `eraseRectangle` (src/unnamed/part_001 lines 43-48):
locked segment values are skipped, every other visited voxel is set to 0. -/
def eraseCallback (segmentsLocked : List ℤ) (d : ℤ → ℤ) (value index : ℤ) :
    ℤ → ℤ :=
  if segmentsLocked.contains value then d
  else fun m => if m = index then 0 else d m

/-- `eraseRectangle` (src/unnamed/part_001 lines 16-60): throws when the IJK
bounding box is non-degenerate on every axis (oblique), otherwise erases every
non-locked voxel inside the box to 0 and triggers the
segmentation-data-modified event.  Result components: thrown error message if
any, scalar data after the call, whether the modified event was triggered. -/
def eraseRectangle (op : EraseOperationData) :
    Option String × (ℤ → ℤ) × Bool :=
  let b := op.boundsIJK
  if b.iMin ≠ b.iMax ∧ b.jMin ≠ b.jMax ∧ b.kMin ≠ b.kMax then
    (some "Oblique segmentation tools are not supported yet",
      op.scalarData, false)
  else
    (none,
      pointInShapeCallback b op.dimensions (fun _ => true)
        (eraseCallback op.segmentsLocked) op.scalarData,
      true)

/-- `eraseInsideRectangle` (src/unnamed/part_001 lines 68-73) delegates to
`eraseRectangle` with `inside = true` (the flag is not read by the body). -/
def eraseInsideRectangle (op : EraseOperationData) :
    Option String × (ℤ → ℤ) × Bool :=
  eraseRectangle op

/-- Linear index `m` is covered by some voxel whose coordinates lie inside the
bounding box (bounds inclusive), as claim C4 words it. -/
def coveredIndex (b : BoundsIJK) (dims : ℤ × ℤ × ℤ) (m : ℤ) : Prop :=
  ∃ p : ℤ × ℤ × ℤ,
    b.iMin ≤ p.1 ∧ p.1 ≤ b.iMax ∧ b.jMin ≤ p.2.1 ∧ p.2.1 ≤ b.jMax ∧
    b.kMin ≤ p.2.2 ∧ p.2.2 ≤ b.kMax ∧ linearIndex dims p = m

end EraseRect

namespace Zoom

/-- The `ZoomTool` configuration fields read by `_dragParallelProjection`,
with the defaults of the constructor
(src/packages/tools/src/tools/ZoomTool.ts lines 25-36). -/
structure ZoomConfig where
  zoomToCenter : Bool
  invert : Bool
  minZoomScale : ℚ
  maxZoomScale : ℚ
deriving Repr, DecidableEq

/-- Constructor defaults: `zoomToCenter: false`, `invert: false`,
`minZoomScale: 0.001`, `maxZoomScale: 3000`. -/
def defaultZoomConfig : ZoomConfig :=
  { zoomToCenter := false, invert := false
    minZoomScale := 1 / 1000, maxZoomScale := 3000 }

/-- The camera fields read by `_dragParallelProjection`. -/
structure CameraPar where
  parallelScale : ℚ
  focalPoint : ℚ × ℚ × ℚ
  position : ℚ × ℚ × ℚ
deriving Repr, DecidableEq

/-- The viewport image data fields read by `_dragParallelProjection`. -/
structure ImageDataInfo where
  spacing : ℚ × ℚ × ℚ
  dimensions : ℤ × ℤ × ℤ
deriving Repr, DecidableEq

/-- The arguments passed to `viewport.setCamera`. -/
structure SetCameraArgs where
  parallelScale : ℚ
  focalPoint : ℚ × ℚ × ℚ
  position : ℚ × ℚ × ℚ
deriving Repr, DecidableEq

/-- `vec3.scaleAndAdd(out, a, dir, s)`. -/
def scaleAndAdd3 (a dir : ℚ × ℚ × ℚ) (s : ℚ) : ℚ × ℚ × ℚ :=
  (a.1 + dir.1 * s, a.2.1 + dir.2.1 * s, a.2.2 + dir.2.2 * s)

/-- The minimum parallel scale required to fully fit the image
(src/packages/tools/src/tools/ZoomTool.ts lines 199-226): display-area-scaled
image dimensions against the canvas aspect ratio. -/
def minParallelScaleRequiredOf (img : ImageDataInfo) (sizeW sizeH : ℚ)
    (displayArea : Option (ℚ × ℚ)) : ℚ :=
  let imageWidth := (img.dimensions.1 : ℚ) * img.spacing.1
  let imageHeight := (img.dimensions.2.1 : ℚ) * img.spacing.2.1
  let canvasAspect := sizeW / sizeH
  let imageAreaScaleX := (displayArea.map Prod.fst).getD (11 / 10)
  let imageAreaScaleY := (displayArea.map Prod.snd).getD (11 / 10)
  let scaledImageWidth := imageWidth * imageAreaScaleX
  let scaledImageHeight := imageHeight * imageAreaScaleY
  let scaledImageAspect := scaledImageWidth / scaledImageHeight
  if scaledImageAspect > canvasAspect then
    scaledImageWidth / canvasAspect * (1 / 2)
  else
    scaledImageHeight * (1 / 2)

/-- The zoom factor `k = deltaY * (5 / size[1]) * (invert ? -1 : 1)` of
`_dragParallelProjection` (lines 157-158). -/
def zoomFactorK (cfg : ZoomConfig) (sizeH deltaY : ℚ) : ℚ :=
  deltaY * (5 / sizeH) * (if cfg.invert then -1 else 1)

/-- `_dragParallelProjection` (src/packages/tools/src/tools/ZoomTool.ts lines
143-249).  `distanceToCanvasCenter` stands for
`vec3.distance(focalPoint, initialMousePosWorld)` — a Euclidean norm, hence
irrational in general, so the already-computed distance is an input.
`imageData` is `none` when `viewport.getImageData()` returns nothing, in which
case no clamping occurs. -/
def dragParallelProjection (cfg : ZoomConfig) (sizeW sizeH deltaY : ℚ)
    (cam : CameraPar) (dirVec : ℚ × ℚ × ℚ) (distanceToCanvasCenter : ℚ)
    (imageData : Option ImageDataInfo) (displayArea : Option (ℚ × ℚ)) :
    SetCameraArgs :=
  let k := zoomFactorK cfg sizeH deltaY
  let parallelScaleToSet := (1 - k) * cam.parallelScale
  let focalPointToSet :=
    if cfg.zoomToCenter then cam.focalPoint
    else scaleAndAdd3 cam.focalPoint dirVec (-distanceToCanvasCenter * k)
  let positionToSet :=
    if cfg.zoomToCenter then cam.position
    else scaleAndAdd3 cam.position dirVec (-distanceToCanvasCenter * k)
  match imageData with
  | none =>
      { parallelScale := parallelScaleToSet
        focalPoint := focalPointToSet, position := positionToSet }
  | some img =>
      let minParallelScaleRequired :=
        minParallelScaleRequiredOf img sizeW sizeH displayArea
      let minScaleInWorld := minParallelScaleRequired / cfg.maxZoomScale
      let maxScaleInWorld := minParallelScaleRequired / cfg.minZoomScale
      if parallelScaleToSet < minScaleInWorld then
        { parallelScale := minScaleInWorld
          focalPoint := cam.focalPoint, position := cam.position }
      else if parallelScaleToSet > maxScaleInWorld then
        { parallelScale := maxScaleInWorld
          focalPoint := cam.focalPoint, position := cam.position }
      else
        { parallelScale := parallelScaleToSet
          focalPoint := focalPointToSet, position := positionToSet }

end Zoom

namespace Scissors

/-- The fields of `editData` set by
`RectangleScissorsTool.preMouseDownCallback` that the claims reason about. -/
structure EditData where
  segmentationId : String
  segmentIndex : ℤ
  segmentsLocked : List ℤ
deriving Repr, DecidableEq

/-- The tool-instance state touched by `preMouseDownCallback`. -/
structure ScissorsState where
  isDrawing : Bool
  editData : Option EditData
  drawHandlersActive : Bool
deriving Repr, DecidableEq

/-- The external segmentation state read by `preMouseDownCallback`:
`activeSegmentation.getActiveSegmentation(viewport.id)` (its `segmentationId`
when present), the active segment index and the locked segment indices per
segmentation. -/
structure ScissorsEnv where
  activeSegmentationId : Option String
  activeSegmentIndex : String → ℤ
  lockedSegments : String → List ℤ

/-- `RectangleScissorsTool.preMouseDownCallback`
(src/packages/tools/src/tools/segmentation/RectangleScissorsTool.ts lines
101-222): returns early (undefined) when already drawing; otherwise sets
`isDrawing`, throws when no active segmentation exists, and otherwise fills
`editData`, activates the draw event handlers and returns `true`.  Result
components: thrown error message if any, the tool state after the call
(JavaScript mutations before a throw persist), and the returned value (`none`
models the early `return;`). -/
def preMouseDownCallback (st : ScissorsState) (env : ScissorsEnv) :
    Option String × ScissorsState × Option Bool :=
  if st.isDrawing then (none, st, none)
  else
    let st1 := { st with isDrawing := true }
    match env.activeSegmentationId with
    | none =>
        (some "No active segmentation detected, create one before using scissors tool",
          st1, none)
    | some segmentationId =>
        let ed : EditData :=
          { segmentationId := segmentationId
            segmentIndex := env.activeSegmentIndex segmentationId
            segmentsLocked := env.lockedSegments segmentationId }
        (none,
          { st1 with editData := some ed, drawHandlersActive := true },
          some true)

end Scissors

namespace Multiframe

/-- The metadata returned by `metaData.get('MultiframeModule', imageId)`:
`NumberOfFrames` may itself be absent. -/
structure MultiframeMeta where
  NumberOfFrames : Option ℤ
deriving Repr, DecidableEq

/-- The character sequence `'/frames/'`. -/
def framesToken : List Char :=
  "/frames/".toList

/-- JavaScript `hay.indexOf(needle)`: index of the first occurrence of
`needle` in `hay`, `-1` when absent. -/
def indexOfSub (needle : List Char) : List Char → ℤ
  | [] => if needle.isPrefixOf ([] : List Char) then 0 else -1
  | c :: t =>
      if needle.isPrefixOf (c :: t) then 0
      else
        let r := indexOfSub needle t
        if r = -1 then -1 else r + 1

/-- `imageId.slice(0, imageId.indexOf('/frames/') + 8)`
(src/utils/demo/helpers/convertMultiframeImageIds.js line 14). -/
def framelessOf (imageId : List Char) : List Char :=
  imageId.take (indexOfSub framesToken imageId + 8).toNat

/-- The per-imageId expansion done by the `forEach` body of
`convertMultiframeImageIds` (src/utils/demo/helpers lines 13-30): an imageId
without `MultiframeModule` metadata, without a truthy `NumberOfFrames`, or
with `NumberOfFrames <= 1` is pushed unchanged; one with `NumberOfFrames = n >
1` contributes the frame imageIds `frameless + 1 .. frameless + n`, keeping
exactly those for which metadata exists. -/
def expandImageId (meta : List Char → Option MultiframeMeta)
    (imageId : List Char) : List (List Char) :=
  let framelessId := framelessOf imageId
  match meta imageId with
  | some m =>
      match m.NumberOfFrames with
      | some n =>
          if n ≠ 0 then
            if 1 < n then
              (List.range n.toNat).filterMap (fun i =>
                let newId := framelessId ++ (Nat.repr (i + 1)).toList
                if (meta newId).isSome then some newId else none)
            else [imageId]
          else [imageId]
      | none => [imageId]
  | none => [imageId]

/-- `convertMultiframeImageIds` (src/utils/demo/helpers lines 11-32): builds
the output by pushing, in input order, the expansion of each imageId. -/
def convertMultiframeImageIds (meta : List Char → Option MultiframeMeta)
    (imageIds : List (List Char)) : List (List Char) :=
  imageIds.foldl (fun newImageIds imageId =>
    newImageIds ++ expandImageId meta imageId) []

/-- The replacement of a multiframe imageId as claim C9 words it: the
imageId's `'/frames/'` prefix followed by the frame numbers `1..n`, keeping
exactly those frame imageIds for which `MultiframeModule` metadata exists. -/
def claimFrames (meta : List Char → Option MultiframeMeta)
    (imageId : List Char) (n : ℤ) : List (List Char) :=
  (((List.range n.toNat).map (fun i =>
      framelessOf imageId ++ (Nat.repr (i + 1)).toList)).filter
    (fun newId => (meta newId).isSome))

end Multiframe

/-- C10: every call to the exported function `fillOutsideSphere` throws an
Error with the message 'fill outside sphere not implemented', regardless of
arguments or state. -/
theorem fillOutsideSphere_always_throws :
    ∀ u : Unit, SphereStrategy.fillOutsideSphere u =
      Except.error "fill outside sphere not implemented" :=
  fun _ => rfl

/-- Two step effects agree when their decidable scroll conditions are
equivalent and the indices are equal. -/
theorem stepEffect_congr (c e r : Bool) (i₁ i₂ : ℤ) (p₁ p₂ : Prop)
    [Decidable p₁] [Decidable p₂] (hi : i₁ = i₂) (hp : p₁ ↔ p₂) :
    Cine.StepEffect.mk c e r i₁ (decide p₁) =
      Cine.StepEffect.mk c e r i₂ (decide p₂) := by
  subst hi
  simp [decide_eq_decide.mpr hp]

/-- C1: for every tick of a playing CINE clip, `playClipAction` advances the
step index by +1 (or -1 when reverse is set); if the new index falls outside
`[0, numScrollSteps)` then with bounce the direction is flipped and the index
recomputed and clamped into `[0, numScrollSteps - 1]`, otherwise with loop the
index wraps to 0 (or `numScrollSteps - 1` in reverse), otherwise the clip is
stopped and `CLIP_STOPPED` fired without any scroll; a scroll is issued only
when the resulting index differs from the current one. -/
theorem playClipAction_matches_claim (numScrollSteps currentStepIndex : ℤ)
    (reverse bounce loop : Bool) (h : 1 ≤ numScrollSteps) :
    Cine.playClipAction numScrollSteps currentStepIndex reverse bounce loop =
      Cine.claimStep numScrollSteps currentStepIndex reverse bounce loop := by
  simp only [Cine.playClipAction, Cine.claimStep, max_def, min_def]
  cases reverse <;> cases bounce <;> cases loop <;>
    simp only [Bool.not_false, Bool.not_true, if_true, if_false,
      Bool.false_eq_true, Bool.true_eq_false] <;>
    split_ifs <;>
    first
      | rfl
      | exact stepEffect_congr _ _ _ _ _ _ _ (by omega) (by omega)
      | (exfalso; omega)

/-- Witness for C1 at a concrete wrap-around tick. -/
theorem playClipAction_matches_claim_witness :
    (Cine.playClipAction 10 9 false false true =
       Cine.claimStep 10 9 false false true) ∧
    Cine.claimStep 10 9 false false true =
      { clipStopped := false, stopEventFired := false, reverseAfter := false
        indexAfter := 0, scrollIssued := true } :=
  ⟨playClipAction_matches_claim 10 9 false false true (by decide), by decide⟩

/-- C5: `eraseRectangle` throws 'Oblique segmentation tools are not supported
yet' exactly when every one of the three axes of the IJK bounding box has
`min != max`, and when it throws the labelmap scalar data is unchanged and no
modified event is triggered. -/
theorem eraseRectangle_oblique_guard (op : EraseRect.EraseOperationData) :
    ((EraseRect.eraseRectangle op).1 =
        some "Oblique segmentation tools are not supported yet" ↔
      (op.boundsIJK.iMin ≠ op.boundsIJK.iMax ∧
        op.boundsIJK.jMin ≠ op.boundsIJK.jMax ∧
        op.boundsIJK.kMin ≠ op.boundsIJK.kMax)) ∧
    (∀ msg, (EraseRect.eraseRectangle op).1 = some msg →
      (EraseRect.eraseRectangle op).2.1 = op.scalarData ∧
      (EraseRect.eraseRectangle op).2.2 = false) := by
  simp only [EraseRect.eraseRectangle]
  split_ifs with h
  · exact ⟨by simp [h], fun msg _ => ⟨rfl, rfl⟩⟩
  · exact ⟨by simp [h], fun msg hmsg => by simp at hmsg⟩

/-- Witness for C5 on a concrete oblique bounding box. -/
theorem eraseRectangle_oblique_guard_witness :
    ((EraseRect.eraseRectangle
        { scalarData := fun _ => 1, dimensions := (2, 2, 2)
          segmentsLocked := [], boundsIJK := ⟨0, 1, 0, 1, 0, 1⟩ }).1 =
      some "Oblique segmentation tools are not supported yet") ∧
    ((EraseRect.eraseRectangle
        { scalarData := fun _ => 1, dimensions := (2, 2, 2)
          segmentsLocked := [], boundsIJK := ⟨0, 1, 0, 1, 0, 1⟩ }).2.2 = false) := by
  have h := eraseRectangle_oblique_guard
    { scalarData := fun _ => 1, dimensions := (2, 2, 2)
      segmentsLocked := [], boundsIJK := ⟨0, 1, 0, 1, 0, 1⟩ }
  have h1 := h.1.mpr (by decide)
  exact ⟨h1, (h.2 _ h1).2⟩

/-- C7: `playClip` throws 'playClip: element must not be undefined' when its
element argument is undefined and 'playClip: element must be a valid
Cornerstone enabled element' when the element is not enabled; in either case
the error is raised before any tool state is added and before any timer is
started (the state update and the scheduled timer exist only in the `ok`
result). -/
theorem playClip_guard_errors {α β : Type} (getEnabled : α → Option β)
    (ctxOf : β → Cine.CinePlayContext) (prior : Option Cine.PlayClipData)
    (opts : Cine.PlayClipOptions) :
    (Cine.playClipGuarded (none : Option α) getEnabled ctxOf prior opts =
        .error "playClip: element must not be undefined") ∧
    (∀ e : α, getEnabled e = none →
      Cine.playClipGuarded (some e) getEnabled ctxOf prior opts =
        .error "playClip: element must be a valid Cornerstone enabled element") := by
  refine ⟨rfl, fun e he => ?_⟩
  simp [Cine.playClipGuarded, he]

/-- Witness for C7 with a concrete disabled element. -/
theorem playClip_guard_errors_witness :
    (Cine.playClipGuarded (none : Option Unit) (fun _ => (none : Option Unit))
        (fun _ => ⟨false, 0, 0, false⟩) none {} =
      .error "playClip: element must not be undefined") ∧
    (Cine.playClipGuarded (some ()) (fun _ => (none : Option Unit))
        (fun _ => ⟨false, 0, 0, false⟩) none {} =
      .error "playClip: element must be a valid Cornerstone enabled element") :=
  ⟨(playClip_guard_errors _ _ none {}).1,
   (playClip_guard_errors _ _ none {}).2 () rfl⟩

/-- Membership in `intRange` is the pair of inequalities. -/
theorem mem_intRange (lo hi m : ℤ) :
    m ∈ intRange lo hi ↔ lo ≤ m ∧ m ≤ hi := by
  unfold intRange
  rw [List.mem_map]
  constructor
  · rintro ⟨k, hk, rfl⟩
    rw [List.mem_range] at hk
    simp only [Int.ofNat_eq_coe]
    omega
  · intro h
    refine ⟨(m - lo).toNat, List.mem_range.mpr (by omega), ?_⟩
    simp only [Int.ofNat_eq_coe]
    omega

/-- Membership in `voxelsInBounds` is componentwise membership in the box. -/
theorem mem_voxelsInBounds (b : EraseRect.BoundsIJK) (p : ℤ × ℤ × ℤ) :
    p ∈ EraseRect.voxelsInBounds b ↔
      (b.iMin ≤ p.1 ∧ p.1 ≤ b.iMax ∧ b.jMin ≤ p.2.1 ∧ p.2.1 ≤ b.jMax ∧
        b.kMin ≤ p.2.2 ∧ p.2.2 ≤ b.kMax) := by
  simp only [EraseRect.voxelsInBounds, List.mem_flatMap, List.mem_map,
    mem_intRange]
  constructor
  · rintro ⟨k, hk, j, hj, i, hi, rfl⟩
    exact ⟨hi.1, hi.2, hj.1, hj.2, hk.1, hk.2⟩
  · rintro ⟨h1, h2, h3, h4, h5, h6⟩
    exact ⟨p.2.2, ⟨h5, h6⟩, p.2.1, ⟨h3, h4⟩, p.1, ⟨h1, h2⟩, rfl⟩

/-- `coveredIndex` through the voxel list the iteration actually visits. -/
theorem coveredIndex_iff_exists_mem (b : EraseRect.BoundsIJK)
    (dims : ℤ × ℤ × ℤ) (m : ℤ) :
    EraseRect.coveredIndex b dims m ↔
      ∃ p ∈ EraseRect.voxelsInBounds b, EraseRect.linearIndex dims p = m := by
  unfold EraseRect.coveredIndex
  constructor
  · rintro ⟨p, h1, h2, h3, h4, h5, h6, h7⟩
    exact ⟨p, (mem_voxelsInBounds b p).mpr ⟨h1, h2, h3, h4, h5, h6⟩, h7⟩
  · rintro ⟨p, hp, h7⟩
    obtain ⟨h1, h2, h3, h4, h5, h6⟩ := (mem_voxelsInBounds b p).mp hp
    exact ⟨p, h1, h2, h3, h4, h5, h6, h7⟩

/-- `coveredIndex` as a decidable scan over the voxel list. -/
theorem coveredIndex_iff_any (b : EraseRect.BoundsIJK) (dims : ℤ × ℤ × ℤ)
    (m : ℤ) :
    EraseRect.coveredIndex b dims m ↔
      ((EraseRect.voxelsInBounds b).any
        (fun p => decide (EraseRect.linearIndex dims p = m)) = true) := by
  rw [coveredIndex_iff_exists_mem]
  simp [List.any_eq_true]

/-- Pointwise characterisation of the erase fold: a visited linear index keeps
its value when locked and is cleared to 0 otherwise; an unvisited one is
untouched. -/
theorem erase_foldl_char (locked : List ℤ) (f : ℤ × ℤ × ℤ → ℤ)
    (l : List (ℤ × ℤ × ℤ)) :
    ∀ (d : ℤ → ℤ) (m : ℤ),
      (l.foldl
        (fun dd p => EraseRect.eraseCallback locked dd (dd (f p)) (f p)) d) m =
        if ∃ p ∈ l, f p = m then (if d m ∈ locked then d m else 0)
        else d m := by
  induction l with
  | nil =>
      intro d m
      simp
  | cons p rest ih =>
      intro d m
      rw [List.foldl_cons, ih]
      have hcons : (∃ x ∈ p :: rest, f x = m) ↔
          (f p = m ∨ ∃ x ∈ rest, f x = m) := by
        simp [List.mem_cons, or_and_right, exists_or]
      by_cases hc : d (f p) ∈ locked
      · have hcb : EraseRect.eraseCallback locked d (d (f p)) (f p) = d := by
          simp [EraseRect.eraseCallback, hc]
        rw [hcb]
        by_cases hE : f p = m
        · subst hE
          by_cases hR : ∃ q ∈ rest, f q = f p <;>
            simp [hcons, hR, hc]
        · by_cases hR : ∃ q ∈ rest, f q = m <;>
            simp [hcons, hE, hR]
      · have hcb : EraseRect.eraseCallback locked d (d (f p)) (f p) =
            fun x => if x = f p then 0 else d x := by
          simp [EraseRect.eraseCallback, hc]
        rw [hcb]
        by_cases hE : f p = m
        · subst hE
          by_cases hR : ∃ q ∈ rest, f q = f p <;>
            simp [hcons, hc, hR]
        · have hmp : m ≠ f p := fun h => hE h.symm
          by_cases hR : ∃ q ∈ rest, f q = m <;>
            simp [hcons, hE, hR, hmp]

/-- C4: for every `eraseInsideRectangle` on a non-oblique rectangle (IJK box
degenerate in at least one axis), every voxel index covered by the box whose
current value is in `segmentsLocked` keeps its value, every other covered
index is set to 0, every uncovered index is unchanged, and the
segmentation-data-modified event is triggered. -/
theorem eraseInsideRectangle_effect (op : EraseRect.EraseOperationData)
    (hdeg : op.boundsIJK.iMin = op.boundsIJK.iMax ∨
      op.boundsIJK.jMin = op.boundsIJK.jMax ∨
      op.boundsIJK.kMin = op.boundsIJK.kMax) :
    ∃ d', EraseRect.eraseInsideRectangle op = (none, d', true) ∧
      (∀ m, EraseRect.coveredIndex op.boundsIJK op.dimensions m →
        op.scalarData m ∈ op.segmentsLocked → d' m = op.scalarData m) ∧
      (∀ m, EraseRect.coveredIndex op.boundsIJK op.dimensions m →
        op.scalarData m ∉ op.segmentsLocked → d' m = 0) ∧
      (∀ m, ¬ EraseRect.coveredIndex op.boundsIJK op.dimensions m →
        d' m = op.scalarData m) := by
  have hguard : ¬(op.boundsIJK.iMin ≠ op.boundsIJK.iMax ∧
      op.boundsIJK.jMin ≠ op.boundsIJK.jMax ∧
      op.boundsIJK.kMin ≠ op.boundsIJK.kMax) := by
    tauto
  refine ⟨EraseRect.pointInShapeCallback op.boundsIJK op.dimensions
    (fun _ => true) (EraseRect.eraseCallback op.segmentsLocked)
    op.scalarData, ?_, ?_⟩
  · simp [EraseRect.eraseInsideRectangle, EraseRect.eraseRectangle, hguard]
  · have hchar : ∀ m,
        EraseRect.pointInShapeCallback op.boundsIJK op.dimensions
          (fun _ => true) (EraseRect.eraseCallback op.segmentsLocked)
          op.scalarData m =
        if ∃ p ∈ EraseRect.voxelsInBounds op.boundsIJK,
            EraseRect.linearIndex op.dimensions p = m then
          (if op.scalarData m ∈ op.segmentsLocked then op.scalarData m else 0)
        else op.scalarData m := by
      intro m
      rw [EraseRect.pointInShapeCallback]
      simp only [if_true]
      exact erase_foldl_char op.segmentsLocked
        (EraseRect.linearIndex op.dimensions)
        (EraseRect.voxelsInBounds op.boundsIJK) op.scalarData m
    refine ⟨?_, ?_, ?_⟩
    · intro m hcov hlock
      rw [hchar m, if_pos ((coveredIndex_iff_exists_mem _ _ _).mp hcov),
        if_pos hlock]
    · intro m hcov hlock
      rw [hchar m, if_pos ((coveredIndex_iff_exists_mem _ _ _).mp hcov),
        if_neg hlock]
    · intro m hcov
      rw [hchar m,
        if_neg (fun hex => hcov ((coveredIndex_iff_exists_mem _ _ _).mpr hex))]

/-- Witness for C4 on a concrete 2x2x1 labelmap with one locked segment. -/
theorem eraseInsideRectangle_effect_witness :
    ∃ d', EraseRect.eraseInsideRectangle
        { scalarData := fun m => if m = 1 then 2 else 7
          dimensions := (2, 2, 1), segmentsLocked := [2]
          boundsIJK := ⟨0, 1, 0, 1, 0, 0⟩ } = (none, d', true) ∧
      d' 0 = 0 ∧ d' 1 = 2 ∧ d' 4 = 7 := by
  obtain ⟨d', heq, hkeep, herase, hout⟩ := eraseInsideRectangle_effect
    { scalarData := fun m => if m = 1 then 2 else 7
      dimensions := (2, 2, 1), segmentsLocked := [2]
      boundsIJK := ⟨0, 1, 0, 1, 0, 0⟩ } (Or.inr (Or.inr rfl))
  refine ⟨d', heq, ?_, ?_, ?_⟩
  · exact herase 0 ⟨(0, 0, 0), by decide⟩ (by decide)
  · exact hkeep 1 ⟨(1, 0, 0), by decide⟩ (by decide)
  · exact hout 4 (by rw [coveredIndex_iff_any]; decide)

/-- Counterexample to C8 as stated: when the tool is already drawing
(`isDrawing = true`), `preMouseDownCallback` returns early without throwing,
even though no active segmentation exists. -/
theorem preMouseDownCallback_no_throw_when_drawing :
    (Scissors.preMouseDownCallback
      { isDrawing := true, editData := none, drawHandlersActive := false }
      { activeSegmentationId := none, activeSegmentIndex := fun _ => 1
        lockedSegments := fun _ => [] }).1 = none :=
  rfl

/-- C8 (amended): when the tool is not already drawing and no active
segmentation exists, `preMouseDownCallback` throws 'No active segmentation
detected, create one before using scissors tool', `editData` keeps its prior
value, the draw event handlers are not activated, and nothing is returned. -/
theorem preMouseDownCallback_throws_no_active_seg
    (st : Scissors.ScissorsState) (env : Scissors.ScissorsEnv)
    (h1 : st.isDrawing = false) (h2 : env.activeSegmentationId = none) :
    (Scissors.preMouseDownCallback st env).1 =
      some "No active segmentation detected, create one before using scissors tool" ∧
    (Scissors.preMouseDownCallback st env).2.1.editData = st.editData ∧
    (Scissors.preMouseDownCallback st env).2.1.drawHandlersActive =
      st.drawHandlersActive ∧
    (Scissors.preMouseDownCallback st env).2.2 = none := by
  simp [Scissors.preMouseDownCallback, h1, h2]

/-- Witness for the amended C8 on a concrete idle state. -/
theorem preMouseDownCallback_throws_no_active_seg_witness :
    (Scissors.preMouseDownCallback
      { isDrawing := false, editData := none, drawHandlersActive := false }
      { activeSegmentationId := none, activeSegmentIndex := fun _ => 1
        lockedSegments := fun _ => [] }).1 =
      some "No active segmentation detected, create one before using scissors tool" :=
  (preMouseDownCallback_throws_no_active_seg _ _ rfl rfl).1

/-- Accumulating pushes over a list is the flat map. -/
theorem foldl_append_eq_flatMap {α β : Type} (f : α → List β) :
    ∀ (l : List α) (acc : List β),
      l.foldl (fun a x => a ++ f x) acc = acc ++ l.flatMap f := by
  intro l
  induction l with
  | nil => intro acc; simp
  | cons x t ih =>
      intro acc
      rw [List.foldl_cons, ih]
      simp

/-- A guarded `filterMap` over a list is a map followed by a filter. -/
theorem filterMap_guard_eq_filter {α β : Type} [DecidableEq β] (g : α → β)
    (p : β → Bool) :
    ∀ l : List α,
      l.filterMap (fun i => if p (g i) then some (g i) else none) =
        (l.map g).filter p := by
  intro l
  induction l with
  | nil => simp
  | cons x t ih =>
      by_cases hp : p (g x) = true <;>
        simp [List.filterMap_cons, List.filter_cons, hp, ih]

/-- C9: `convertMultiframeImageIds` preserves the input order (its output is
the in-place flat map of the per-imageId expansion, so no other imageIds
appear); an imageId with no MultiframeModule metadata, a missing
`NumberOfFrames`, or `NumberOfFrames <= 1` appears unchanged; an imageId with
`NumberOfFrames = n > 1` is replaced by the frame imageIds formed from its
'/frames/' prefix plus frame numbers `1..n`, keeping exactly those for which
MultiframeModule metadata exists. -/
theorem convertMultiframeImageIds_spec
    (meta : List Char → Option Multiframe.MultiframeMeta)
    (imageIds : List (List Char)) :
    (Multiframe.convertMultiframeImageIds meta imageIds =
      imageIds.flatMap (Multiframe.expandImageId meta)) ∧
    (∀ imageId, meta imageId = none →
      Multiframe.expandImageId meta imageId = [imageId]) ∧
    (∀ imageId m, meta imageId = some m → m.NumberOfFrames = none →
      Multiframe.expandImageId meta imageId = [imageId]) ∧
    (∀ imageId m n, meta imageId = some m → m.NumberOfFrames = some n →
      n ≤ 1 → Multiframe.expandImageId meta imageId = [imageId]) ∧
    (∀ imageId m n, meta imageId = some m → m.NumberOfFrames = some n →
      1 < n → Multiframe.expandImageId meta imageId =
        Multiframe.claimFrames meta imageId n) := by
  refine ⟨?_, ?_, ?_, ?_, ?_⟩
  · rw [Multiframe.convertMultiframeImageIds,
      foldl_append_eq_flatMap (Multiframe.expandImageId meta) imageIds []]
    simp
  · intro imageId hm
    simp [Multiframe.expandImageId, hm]
  · intro imageId m hm hn
    simp [Multiframe.expandImageId, hm, hn]
  · intro imageId m n hm hn hle
    by_cases h0 : n = 0
    · simp [Multiframe.expandImageId, hm, hn, h0]
    · simp only [Multiframe.expandImageId, hm, hn]
      rw [if_pos h0, if_neg (by omega : ¬ (1 < n))]
  · intro imageId m n hm hn hgt
    rw [Multiframe.expandImageId]
    simp only [hm, hn]
    rw [if_pos (by omega : n ≠ 0)]
    rw [if_pos hgt]
    rw [Multiframe.claimFrames,
      filterMap_guard_eq_filter
        (fun i => Multiframe.framelessOf imageId ++ (Nat.repr (i + 1)).toList)
        (fun newId => (meta newId).isSome) (List.range n.toNat)]

/-- Witness for C9 on a concrete multiframe imageId (3 frames, metadata
missing for the third frame) next to a plain imageId without metadata. -/
theorem convertMultiframeImageIds_spec_witness :
    (Multiframe.expandImageId
      (fun id => if id = "s/frames/1".toList then some ⟨some 3⟩
        else if id = "s/frames/2".toList then some ⟨some 0⟩ else none)
      "b".toList = ["b".toList]) ∧
    (Multiframe.expandImageId
      (fun id => if id = "s/frames/1".toList then some ⟨some 3⟩
        else if id = "s/frames/2".toList then some ⟨some 0⟩ else none)
      "s/frames/1".toList =
      Multiframe.claimFrames
        (fun id => if id = "s/frames/1".toList then some ⟨some 3⟩
          else if id = "s/frames/2".toList then some ⟨some 0⟩ else none)
        "s/frames/1".toList 3) ∧
    Multiframe.convertMultiframeImageIds
      (fun id => if id = "s/frames/1".toList then some ⟨some 3⟩
        else if id = "s/frames/2".toList then some ⟨some 0⟩ else none)
      ["s/frames/1".toList, "b".toList] =
      ["s/frames/1".toList, "s/frames/2".toList, "b".toList] := by
  have h := convertMultiframeImageIds_spec
    (fun id => if id = "s/frames/1".toList then some ⟨some 3⟩
      else if id = "s/frames/2".toList then some ⟨some 0⟩ else none)
    ["s/frames/1".toList, "b".toList]
  refine ⟨h.2.1 _ (by decide), h.2.2.2.2 _ ⟨some 3⟩ 3 (by decide) rfl (by decide), ?_⟩
  rw [h.1]
  decide

/-- An integer already inside `[-2^31, 2^31)` is unchanged by the Int32 wrap. -/
theorem int_bmod_small_eq (x : ℤ) (h1 : -2147483648 ≤ x)
    (h2 : x < 2147483648) : Int.bmod x 4294967296 = x := by
  simp only [Int.bmod_def]
  split_ifs <;> omega

/-- `toInt32` is plain truncation for values inside the Int32 range. -/
theorem toInt32_eq_ratTrunc (q : ℚ) (h1 : -2147483648 ≤ ratTrunc q)
    (h2 : ratTrunc q < 2147483648) : toInt32 q = ratTrunc q := by
  unfold toInt32
  exact int_bmod_small_eq _ h1 h2

/-- C2: for every frame time vector of length `n >= 2` and every speed,
`_getPlayClipTimeouts` discards the first element, produces for each remaining
element the integral part of `element / speed` (speed treated as 1 when not a
number or `<= 0`), reports `isTimeVarying` exactly when the produced delays
are not all equal, and appends one final delay (the integral part of the
average of the produced delays when time varying, otherwise a copy of the
first produced delay), so the returned array has exactly `n` elements.
Hypotheses keep each produced delay and the truncated average inside the Int32
range so that the JS `| 0` is the integral part. -/
theorem getPlayClipTimeouts_spec (vector : List ℚ) (speed : Option ℚ)
    (hlen : 2 ≤ vector.length)
    (hrange : ∀ d ∈ Cine.producedDelays vector speed,
      -2147483648 ≤ d ∧ d < 2147483648)
    (havg :
      -2147483648 ≤ ratTrunc (((Cine.producedDelays vector speed).sum : ℚ) /
          ((Cine.producedDelays vector speed).length : ℚ)) ∧
        ratTrunc (((Cine.producedDelays vector speed).sum : ℚ) /
          ((Cine.producedDelays vector speed).length : ℚ)) < 2147483648) :
    ((Cine.getPlayClipTimeouts vector speed).2 = true ↔
      ∃ d ∈ Cine.producedDelays vector speed,
        d ≠ (Cine.producedDelays vector speed).headI) ∧
    ((Cine.getPlayClipTimeouts vector speed).1 =
      Cine.producedDelays vector speed ++
        [if (Cine.getPlayClipTimeouts vector speed).2 = true then
            ratTrunc (((Cine.producedDelays vector speed).sum : ℚ) /
              ((Cine.producedDelays vector speed).length : ℚ))
          else (Cine.producedDelays vector speed).headI]) ∧
    (Cine.getPlayClipTimeouts vector speed).1.length = vector.length := by
  rcases vector with _ | ⟨a, _ | ⟨q1, qs⟩⟩
  · simp at hlen
  · simp at hlen
  · have hprod : Cine.producedDelays (a :: q1 :: qs) speed =
        (q1 :: qs).map (fun q => ratTrunc (q / Cine.effectiveSpeed speed)) :=
      rfl
    have hmem : ∀ q ∈ q1 :: qs,
        ratTrunc (q / Cine.effectiveSpeed speed) ∈
          Cine.producedDelays (a :: q1 :: qs) speed := by
      intro q hq
      rw [hprod]
      exact List.mem_map_of_mem _ hq
    have hpt : ∀ q ∈ q1 :: qs,
        toInt32 (q / Cine.effectiveSpeed speed) =
          ratTrunc (q / Cine.effectiveSpeed speed) := by
      intro q hq
      exact toInt32_eq_ratTrunc _ (hrange _ (hmem q hq)).1 (hrange _ (hmem q hq)).2
    have hmapeq : (q1 :: qs).map (fun q => toInt32 (q / Cine.effectiveSpeed speed)) =
        (q1 :: qs).map (fun q => ratTrunc (q / Cine.effectiveSpeed speed)) :=
      List.map_congr_left hpt
    have hq1 : toInt32 (q1 / Cine.effectiveSpeed speed) =
        ratTrunc (q1 / Cine.effectiveSpeed speed) :=
      hpt q1 (List.mem_cons_self q1 qs)
    have hqs : qs.map (fun q => toInt32 (q / Cine.effectiveSpeed speed)) =
        qs.map (fun q => ratTrunc (q / Cine.effectiveSpeed speed)) :=
      List.map_congr_left (fun q hq => hpt q (List.mem_cons_of_mem _ hq))
    rw [hprod] at havg
    simp only [Cine.getPlayClipTimeouts, hprod, hmapeq, hq1, hqs]
    refine ⟨?_, ?_, ?_⟩
    · simp only [List.any_eq_true, decide_eq_true_eq, List.headI, List.map_cons]
      constructor
      · rintro ⟨d, hd, hne⟩
        exact ⟨d, List.mem_cons_of_mem _ hd, hne⟩
      · rintro ⟨d, hd, hne⟩
        rcases List.mem_cons.mp hd with rfl | hd
        · exact absurd rfl hne
        · exact ⟨d, hd, hne⟩
    · rw [toInt32_eq_ratTrunc _ havg.1 havg.2]
      simp [List.headI]
    · simp

/-- Witness for C2 on the concrete frame time vector `[5, 100, 250, 400]`
with no speed given. -/
theorem getPlayClipTimeouts_spec_witness :
    (Cine.getPlayClipTimeouts [5, 100, 250, 400] none).1 =
      [100, 250, 400, 250] ∧
    (Cine.getPlayClipTimeouts [5, 100, 250, 400] none).2 = true ∧
    (Cine.getPlayClipTimeouts [5, 100, 250, 400] none).1.length = 4 := by
  have hpd : Cine.producedDelays [5, 100, 250, 400] none = [100, 250, 400] := by
    norm_num [Cine.producedDelays, Cine.effectiveSpeed, ratTrunc]
  have h := getPlayClipTimeouts_spec [5, 100, 250, 400] none (by norm_num)
    (by rw [hpd]; intro d hd; fin_cases hd <;> norm_num)
    (by rw [hpd]; norm_num [ratTrunc, List.sum_cons, List.sum_nil])
  have hex : ∃ d ∈ Cine.producedDelays [5, 100, 250, 400] none,
      d ≠ (Cine.producedDelays [5, 100, 250, 400] none).headI := by
    rw [hpd]
    exact ⟨250, by norm_num, by norm_num [List.headI]⟩
  have hb : (Cine.getPlayClipTimeouts [5, 100, 250, 400] none).2 = true :=
    h.1.mpr hex
  refine ⟨?_, hb, ?_⟩
  · rw [h.2.1, hpd]
    simp only [hb]
    norm_num [ratTrunc, List.sum_cons, List.sum_nil]
  · rw [h.2.2]
    norm_num

/-- A time-varying timeouts result is non-empty. -/
theorem getPlayClipTimeouts_varying_nonempty (v : List ℚ) (sp : Option ℚ)
    (h : (Cine.getPlayClipTimeouts v sp).2 = true) :
    0 < (Cine.getPlayClipTimeouts v sp).1.length := by
  rcases v with _ | ⟨a, _ | ⟨q1, qs⟩⟩
  · simp [Cine.getPlayClipTimeouts] at h
  · simp [Cine.getPlayClipTimeouts] at h
  · simp [Cine.getPlayClipTimeouts]

/-- When `computeTimeouts` yields a result, the four enabling conditions of
lines 113-118 of src/unnamed/part_000 hold, and conversely. -/
theorem computeTimeouts_eq_some_iff (d : Cine.PlayClipData)
    (ctx : Cine.CinePlayContext) (p : List ℤ × Bool) :
    Cine.computeTimeouts d ctx = some p ↔
      ∃ v, d.frameTimeVector = some v ∧ d.ignoreFrameTimeVector = false ∧
        (v.length : ℤ) = ctx.numScrollSteps ∧
        ctx.frameTimeVectorEnabled = true ∧
        p = Cine.getPlayClipTimeouts v (some d.speed) := by
  rcases hv : d.frameTimeVector with _ | v
  · simp [Cine.computeTimeouts, hv]
  · simp only [Cine.computeTimeouts, hv]
    split_ifs with hcond
    · simp only [Option.some.injEq]
      constructor
      · intro hp
        exact ⟨v, rfl, hcond.1, hcond.2.1, hcond.2.2, hp.symm⟩
      · rintro ⟨v', hv', _, _, _, hp⟩
        subst hv'
        exact hp.symm
    · simp only [false_iff]
      rintro ⟨v', hv', h1, h2, h3, _⟩
      rw [Option.some.injEq] at hv'
      subst hv'
      exact hcond ⟨h1, h2, h3⟩

/-- With no `framesPerSecond` option, the stored default rate of 30 survives
the option handling. -/
theorem applyOptions_default_fps (opts : Cine.PlayClipOptions)
    (ho : opts.framesPerSecond = none) :
    (Cine.applyOptions (Cine.freshPlayClipData opts) opts).framesPerSecond =
      30 := by
  unfold Cine.applyOptions
  rcases hb : opts.bounce <;>
    simp [ho, hb, Cine.freshPlayClipData]


/-- C3: on a play context with no `play` method, `playClip` schedules chained
`setTimeout` playback exactly when a frame time vector is stored,
`ignoreFrameTimeVector` is not set (no explicit `framesPerSecond` in effect),
the vector length equals `numScrollSteps`, the context reports
`frameTimeVectorEnabled`, and the computed timeouts are time varying;
`usingFrameTimeVector` is set exactly in that case; in every other case
`setInterval` at the fixed period `1000 / |framesPerSecond|` is used, with
`framesPerSecond` defaulting to 30. -/
theorem playClip_schedule_spec (prior : Option Cine.PlayClipData)
    (opts : Cine.PlayClipOptions) (ctx : Cine.CinePlayContext)
    (hplay : ctx.hasPlay = false) :
    ((∃ ts, (Cine.playClipSchedule prior opts ctx).1 =
        Cine.ScheduleMode.chainedTimeout ts) ↔
      (∃ v, (Cine.applyOptions (prior.getD (Cine.freshPlayClipData opts))
          opts).frameTimeVector = some v ∧
        (Cine.applyOptions (prior.getD (Cine.freshPlayClipData opts))
          opts).ignoreFrameTimeVector = false ∧
        (v.length : ℤ) = ctx.numScrollSteps ∧
        ctx.frameTimeVectorEnabled = true ∧
        (Cine.getPlayClipTimeouts v (some (Cine.applyOptions
          (prior.getD (Cine.freshPlayClipData opts)) opts).speed)).2 = true)) ∧
    ((Cine.playClipSchedule prior opts ctx).2.usingFrameTimeVector = true ↔
      ∃ ts, (Cine.playClipSchedule prior opts ctx).1 =
        Cine.ScheduleMode.chainedTimeout ts) ∧
    ((∀ ts, (Cine.playClipSchedule prior opts ctx).1 ≠
        Cine.ScheduleMode.chainedTimeout ts) →
      (Cine.playClipSchedule prior opts ctx).1 =
        Cine.ScheduleMode.fixedInterval (1000 / |(Cine.applyOptions
          (prior.getD (Cine.freshPlayClipData opts))
            opts).framesPerSecond|)) ∧
    (prior = none → opts.framesPerSecond = none →
      (Cine.applyOptions (prior.getD (Cine.freshPlayClipData opts))
        opts).framesPerSecond = 30) := by
  have hdflt : prior = none → opts.framesPerSecond = none →
      (Cine.applyOptions (prior.getD (Cine.freshPlayClipData opts))
        opts).framesPerSecond = 30 := by
    rintro rfl ho
    exact applyOptions_default_fps opts ho
  unfold Cine.playClipSchedule Cine.schedule
  rw [if_neg (by simp [hplay])]
  rcases hct : Cine.computeTimeouts
      (Cine.applyOptions (prior.getD (Cine.freshPlayClipData opts)) opts)
      ctx with _ | ⟨ts, tv⟩
  · refine ⟨?_, by simp, fun _ => rfl, hdflt⟩
    constructor
    · rintro ⟨ts, hts⟩
      exact Cine.ScheduleMode.noConfusion hts
    · rintro ⟨v, h1, h2, h3, h4, h5⟩
      have hsome := (computeTimeouts_eq_some_iff _ ctx
        (Cine.getPlayClipTimeouts v (some (Cine.applyOptions
          (prior.getD (Cine.freshPlayClipData opts)) opts).speed))).mpr
        ⟨v, h1, h2, h3, h4, rfl⟩
      rw [hct] at hsome
      exact Option.noConfusion hsome
  · dsimp only
    by_cases hc : 0 < ts.length ∧ tv = true
    · rw [if_pos hc]
      obtain ⟨v0, h1, h2, h3, h4, h5⟩ :=
        (computeTimeouts_eq_some_iff _ ctx (ts, tv)).mp hct
      refine ⟨?_, by simp, ?_, hdflt⟩
      · constructor
        · intro _
          exact ⟨v0, h1, h2, h3, h4, by rw [← h5]; exact hc.2⟩
        · intro _
          exact ⟨ts, rfl⟩
      · intro hne
        exact absurd rfl (hne ts)
    · rw [if_neg hc]
      refine ⟨?_, by simp, fun _ => rfl, hdflt⟩
      constructor
      · rintro ⟨ts', hts'⟩
        exact Cine.ScheduleMode.noConfusion hts'
      · rintro ⟨v, g1, g2, g3, g4, g5⟩
        obtain ⟨v0, h1, h2, h3, h4, h5⟩ :=
          (computeTimeouts_eq_some_iff _ ctx (ts, tv)).mp hct
        rw [g1, Option.some.injEq] at h1
        subst h1
        have hsnd := congrArg Prod.snd h5
        simp only at hsnd
        have hfst := congrArg Prod.fst h5
        simp only at hfst
        have htv : tv = true := by
          rw [hsnd]
          exact g5
        have hlen : 0 < ts.length := by
          rw [hfst]
          exact getPlayClipTimeouts_varying_nonempty v
            (some (Cine.applyOptions (prior.getD
              (Cine.freshPlayClipData opts)) opts).speed) g5
        exact (hc ⟨hlen, htv⟩).elim

/-- Witness for C3: with no options and no frame time vector, a context with
no `play` method gets `setInterval` scheduling at the default 30 fps and
`usingFrameTimeVector` stays false. -/
theorem playClip_schedule_spec_witness :
    (Cine.playClipSchedule none {} ⟨false, 5, 0, true⟩).1 =
      Cine.ScheduleMode.fixedInterval (1000 / |(30 : ℚ)|) ∧
    (Cine.playClipSchedule none {}
      ⟨false, 5, 0, true⟩).2.usingFrameTimeVector = false := by
  have h := playClip_schedule_spec none {} ⟨false, 5, 0, true⟩ rfl
  have hno : ¬ ∃ ts, (Cine.playClipSchedule none {} ⟨false, 5, 0, true⟩).1 =
      Cine.ScheduleMode.chainedTimeout ts := by
    intro hex
    obtain ⟨v, hv, -⟩ := h.1.mp hex
    exact Option.noConfusion hv
  refine ⟨h.2.2.1 (fun ts hts => hno ⟨ts, hts⟩), ?_⟩
  exact Bool.eq_false_iff.mpr (fun h' => hno (h.2.1.mp h'))

/-- The minimum parallel scale required to fit the image is positive whenever
the canvas, image dimensions, spacing and display-area scales are positive. -/
theorem minParallelScaleRequired_pos (img : Zoom.ImageDataInfo)
    (sizeW sizeH : ℚ) (displayArea : Option (ℚ × ℚ))
    (hW : 0 < sizeW) (hH : 0 < sizeH)
    (hdx : 0 < img.dimensions.1) (hdy : 0 < img.dimensions.2.1)
    (hsx : 0 < img.spacing.1) (hsy : 0 < img.spacing.2.1)
    (hda : ∀ a b, displayArea = some (a, b) → 0 < a ∧ 0 < b) :
    0 < Zoom.minParallelScaleRequiredOf img sizeW sizeH displayArea := by
  have hsX : 0 < (displayArea.map Prod.fst).getD (11 / 10 : ℚ) := by
    rcases displayArea with _ | ⟨a, b⟩
    · norm_num
    · simpa using (hda a b rfl).1
  have hsY : 0 < (displayArea.map Prod.snd).getD (11 / 10 : ℚ) := by
    rcases displayArea with _ | ⟨a, b⟩
    · norm_num
    · simpa using (hda a b rfl).2
  have hiw : 0 < (img.dimensions.1 : ℚ) * img.spacing.1 :=
    mul_pos (by exact_mod_cast hdx) hsx
  have hih : 0 < (img.dimensions.2.1 : ℚ) * img.spacing.2.1 :=
    mul_pos (by exact_mod_cast hdy) hsy
  simp only [Zoom.minParallelScaleRequiredOf]
  split_ifs
  · exact mul_pos (div_pos (mul_pos hiw hsX) (div_pos hW hH)) (by norm_num)
  · exact mul_pos (mul_pos hih hsY) (by norm_num)

/-- C6: after every parallel-projection drag step on a viewport with image
data, the parallel scale passed to `setCamera` lies within
`[minParallelScaleRequired / maxZoomScale,
minParallelScaleRequired / minZoomScale]`, and whenever clamping to either
bound occurs the camera's focal point and position are passed through
unchanged instead of the zoom-to-mouse-adjusted values. -/
theorem dragParallelProjection_clamped (cfg : Zoom.ZoomConfig)
    (sizeW sizeH deltaY : ℚ) (cam : Zoom.CameraPar) (dirVec : ℚ × ℚ × ℚ)
    (dist : ℚ) (img : Zoom.ImageDataInfo) (displayArea : Option (ℚ × ℚ))
    (hW : 0 < sizeW) (hH : 0 < sizeH)
    (hdx : 0 < img.dimensions.1) (hdy : 0 < img.dimensions.2.1)
    (hsx : 0 < img.spacing.1) (hsy : 0 < img.spacing.2.1)
    (hda : ∀ a b, displayArea = some (a, b) → 0 < a ∧ 0 < b)
    (hmin : 0 < cfg.minZoomScale)
    (hmm : cfg.minZoomScale ≤ cfg.maxZoomScale) :
    (Zoom.minParallelScaleRequiredOf img sizeW sizeH displayArea /
        cfg.maxZoomScale ≤
      (Zoom.dragParallelProjection cfg sizeW sizeH deltaY cam dirVec dist
        (some img) displayArea).parallelScale ∧
      (Zoom.dragParallelProjection cfg sizeW sizeH deltaY cam dirVec dist
        (some img) displayArea).parallelScale ≤
        Zoom.minParallelScaleRequiredOf img sizeW sizeH displayArea /
          cfg.minZoomScale) ∧
    (((1 - Zoom.zoomFactorK cfg sizeH deltaY) * cam.parallelScale <
        Zoom.minParallelScaleRequiredOf img sizeW sizeH displayArea /
          cfg.maxZoomScale ∨
      Zoom.minParallelScaleRequiredOf img sizeW sizeH displayArea /
          cfg.minZoomScale <
        (1 - Zoom.zoomFactorK cfg sizeH deltaY) * cam.parallelScale) →
      ((Zoom.dragParallelProjection cfg sizeW sizeH deltaY cam dirVec dist
          (some img) displayArea).focalPoint = cam.focalPoint ∧
        (Zoom.dragParallelProjection cfg sizeW sizeH deltaY cam dirVec dist
          (some img) displayArea).position = cam.position)) := by
  have hpos := minParallelScaleRequired_pos img sizeW sizeH displayArea
    hW hH hdx hdy hsx hsy hda
  have hmax : 0 < cfg.maxZoomScale := lt_of_lt_of_le hmin hmm
  have hle : Zoom.minParallelScaleRequiredOf img sizeW sizeH displayArea /
      cfg.maxZoomScale ≤
      Zoom.minParallelScaleRequiredOf img sizeW sizeH displayArea /
        cfg.minZoomScale := by
    have h1 := one_div_le_one_div_of_le hmin hmm
    calc Zoom.minParallelScaleRequiredOf img sizeW sizeH displayArea /
          cfg.maxZoomScale
        = Zoom.minParallelScaleRequiredOf img sizeW sizeH displayArea *
            (1 / cfg.maxZoomScale) := by ring
      _ ≤ Zoom.minParallelScaleRequiredOf img sizeW sizeH displayArea *
            (1 / cfg.minZoomScale) :=
          mul_le_mul_of_nonneg_left h1 (le_of_lt hpos)
      _ = Zoom.minParallelScaleRequiredOf img sizeW sizeH displayArea /
            cfg.minZoomScale := by ring
  unfold Zoom.dragParallelProjection
  dsimp only
  split_ifs <;>
    first
      | exact ⟨⟨le_refl _, hle⟩, fun _ => ⟨rfl, rfl⟩⟩
      | exact ⟨⟨hle, le_refl _⟩, fun _ => ⟨rfl, rfl⟩⟩
      | (refine ⟨⟨not_lt.mp (by assumption), not_lt.mp (by assumption)⟩, ?_⟩
         first
           | exact fun _ => ⟨rfl, rfl⟩
           | (rintro (hcl | hcl) <;> exact absurd hcl (by assumption)))

/-- Witness for C6 on a concrete 512x512 image in a 500x500 canvas with the
default zoom configuration. -/
theorem dragParallelProjection_clamped_witness :
    Zoom.minParallelScaleRequiredOf
      { spacing := (1, 1, 1), dimensions := (512, 512, 1) } 500 500 none =
      1408 / 5 ∧
    (Zoom.minParallelScaleRequiredOf
        { spacing := (1, 1, 1), dimensions := (512, 512, 1) } 500 500 none /
        Zoom.defaultZoomConfig.maxZoomScale ≤
      (Zoom.dragParallelProjection Zoom.defaultZoomConfig 500 500 10
        { parallelScale := 100, focalPoint := (0, 0, 0)
          position := (0, 0, 1) }
        (0, 0, 0) 0
        (some { spacing := (1, 1, 1), dimensions := (512, 512, 1) })
        none).parallelScale ∧
      (Zoom.dragParallelProjection Zoom.defaultZoomConfig 500 500 10
        { parallelScale := 100, focalPoint := (0, 0, 0)
          position := (0, 0, 1) }
        (0, 0, 0) 0
        (some { spacing := (1, 1, 1), dimensions := (512, 512, 1) })
        none).parallelScale ≤
        Zoom.minParallelScaleRequiredOf
          { spacing := (1, 1, 1), dimensions := (512, 512, 1) } 500 500 none /
          Zoom.defaultZoomConfig.minZoomScale) := by
  constructor
  · norm_num [Zoom.minParallelScaleRequiredOf]
  · exact (dragParallelProjection_clamped Zoom.defaultZoomConfig 500 500 10
      { parallelScale := 100, focalPoint := (0, 0, 0), position := (0, 0, 1) }
      (0, 0, 0) 0
      { spacing := (1, 1, 1), dimensions := (512, 512, 1) } none
      (by norm_num) (by norm_num) (by norm_num) (by norm_num)
      (by norm_num) (by norm_num)
      (fun a b h => Option.noConfusion h)
      (by norm_num [Zoom.defaultZoomConfig])
      (by norm_num [Zoom.defaultZoomConfig])).1
